/-
Verification of the WAIDataset adapter (mvsanywhere/datasets/wai_dataset.py).

The development shallowly embeds the dataset adapter's pure content:
  * extended "float" values (finite rationals plus the infinities and NaN)
    stand in for IEEE floats; exact rational arithmetic abstracts rounding,
  * depth images are rectangular grids of rational pixel values,
  * the filesystem is an explicit map from path strings to file contents,
  * Python's dynamic equality between a dict and a string is modelled on a
    small dynamic-value type.
-/
import Mathlib

namespace WAI

/-! ## Extended float values

`FVal` models the IEEE-754 value classes that the pose-validity check in
`get_valid_frame_ids` distinguishes: finite values (abstracted as exact
rationals), the two infinities and NaN. -/

inductive FVal where
  | fin (q : ℚ)
  | pinf
  | ninf
  | nan
deriving DecidableEq, Repr, BEq

/-- IEEE-754 addition on value classes: NaN propagates, opposite infinities
give NaN, an infinity absorbs finite values. -/
def FVal.add : FVal → FVal → FVal
  | .nan, _ => .nan
  | _, .nan => .nan
  | .fin a, .fin b => .fin (a + b)
  | .fin _, .pinf => .pinf
  | .pinf, .fin _ => .pinf
  | .fin _, .ninf => .ninf
  | .ninf, .fin _ => .ninf
  | .pinf, .pinf => .pinf
  | .ninf, .ninf => .ninf
  | .pinf, .ninf => .nan
  | .ninf, .pinf => .nan

/-- IEEE-754 multiplication on value classes (used by the `gl_to_cv`
sign-mask branch of `load_pose`): NaN propagates, `0 * inf = NaN`. -/
def FVal.mul : FVal → FVal → FVal
  | .nan, _ => .nan
  | _, .nan => .nan
  | .fin a, .fin b => .fin (a * b)
  | .fin a, .pinf => if 0 < a then .pinf else if a < 0 then .ninf else .nan
  | .pinf, .fin a => if 0 < a then .pinf else if a < 0 then .ninf else .nan
  | .fin a, .ninf => if 0 < a then .ninf else if a < 0 then .pinf else .nan
  | .ninf, .fin a => if 0 < a then .ninf else if a < 0 then .pinf else .nan
  | .pinf, .pinf => .pinf
  | .ninf, .ninf => .pinf
  | .pinf, .ninf => .ninf
  | .ninf, .pinf => .ninf

/-- `np.isnan` on a value class. -/
def FVal.isNan : FVal → Bool
  | .nan => true
  | _ => false

/-- `np.isinf` on a value class (true for both infinities). -/
def FVal.isInf : FVal → Bool
  | .pinf => true
  | .ninf => true
  | _ => false

/-- `np.isneginf` on a value class. -/
def FVal.isNegInf : FVal → Bool
  | .ninf => true
  | _ => false

/-- Is the value finite? -/
def FVal.isFinite : FVal → Bool
  | .fin _ => true
  | _ => false

/-- `np.sum` of a list of float values (left fold starting from `0`). -/
def npSum (l : List FVal) : FVal := l.foldl FVal.add (FVal.fin 0)

/-! ## String helpers

Structural-recursion re-implementations of the Python string operations the
source uses, so that witnesses can be evaluated by `decide`. -/

/-- Does `pat` occur at the head of `l`? -/
def leadsWith : List Char → List Char → Bool
  | [], _ => true
  | _ :: _, [] => false
  | a :: as, b :: bs => a == b && leadsWith as bs

/-- Does `pat` occur anywhere in `l`? -/
def containsSub (l pat : List Char) : Bool :=
  leadsWith pat l ||
    match l with
    | [] => false
    | _ :: t => containsSub t pat

/-- Python's `pat in s` substring test. -/
def strContains (s pat : String) : Bool := containsSub s.data pat.data

/-- Python's `s.rstrip("\n")`: drop every trailing newline character. -/
def rstripNl (s : String) : String :=
  ⟨(s.data.reverse.dropWhile (fun c => c == '\n')).reverse⟩

/-- Python's `"\n".join(lines)`. -/
def joinNl : List String → String
  | [] => ""
  | [s] => s
  | s :: rest => s ++ "\n" ++ joinNl rest

/-- Helper for `pyReadlines`: `acc` holds the current line's characters in
reverse order. -/
def pyReadlinesAux : List Char → List Char → List String
  | [], acc => if acc.isEmpty then [] else [⟨acc.reverse⟩]
  | c :: rest, acc =>
    if c == '\n' then (⟨(c :: acc).reverse⟩ : String) :: pyReadlinesAux rest []
    else pyReadlinesAux rest (c :: acc)

/-- Python's `f.readlines()` on a file whose raw content is `s`: split after
each newline, keeping the newline at the end of each line. -/
def pyReadlines (s : String) : List String := pyReadlinesAux s.data []

/-! ## Python dynamic equality

`load_pose` tests `self.capture_metadata[scan_id]["frames"] == "opengl"`.
The left side is a dict, the right side a string; Python's `==` between
values of unrelated types is `False` (`dict.__eq__` returns
`NotImplemented`, and the identity fallback fails). `PyVal` models just
enough of the dynamic value universe to express that comparison. -/

inductive PyVal (α : Type) where
  | str (s : String)
  | dict (d : List (String × α))

/-- Python `==` restricted to the `PyVal` fragment: same-type values compare
structurally, values of different types are never equal. -/
def PyVal.eq [BEq α] : PyVal α → PyVal α → Bool
  | .str a, .str b => a == b
  | .dict a, .dict b => a == b
  | _, _ => false

/-! ## Scene metadata

`scene_meta.json` carries scene-wide intrinsics defaults plus a list of
per-frame records; `load_capture_metadata` reindexes the frame list into a
dict keyed by each frame's `file_path` (last duplicate wins, first insertion
position kept — Python dict semantics). -/

structure FrameMeta where
  file_path : String
  transform_matrix : List FVal
  w : Option ℚ := none
  h : Option ℚ := none
  cx : Option ℚ := none
  cy : Option ℚ := none
  fl_x : Option ℚ := none
  fl_y : Option ℚ := none
deriving DecidableEq, BEq, Repr

/-- Scene metadata after `load_capture_metadata` has replaced the `frames`
list by the file-path-keyed dict. -/
structure SceneMeta where
  w : ℚ
  h : ℚ
  cx : ℚ
  cy : ℚ
  fl_x : ℚ
  fl_y : ℚ
  frames : List (String × FrameMeta)
deriving Repr

/-- `dict[k] = v` on an insertion-ordered association list: overwriting keeps
the original position, a new key is appended. -/
def dictInsert : List (String × α) → String → α → List (String × α)
  | [], k, v => [(k, v)]
  | (k0, v0) :: rest, k, v =>
    if k0 = k then (k, v) :: rest else (k0, v0) :: dictInsert rest k v

/-- The `frame_data[frame["file_path"]] = frame` loop of
`load_capture_metadata`. -/
def buildFramesDict (frames : List FrameMeta) : List (String × FrameMeta) :=
  frames.foldl (fun acc f => dictInsert acc f.file_path f) []

/-- `dict[k]` lookup. -/
def lookupD (d : List (String × α)) (k : String) : Option α :=
  (d.find? (fun p => p.1 == k)).map (·.2)

/-! ## Dataset configuration

The constructor arguments and base-class state that the verified methods
read. `sub_folder_dir` is the base class's split-to-directory mapping, kept
abstract. -/

structure Config where
  dataset_path : String
  sub_folder_dir : String → String
  matching_width : ℕ
  matching_height : ℕ
  depth_width : ℕ
  depth_height : ℕ
  rotate_images : Bool
  include_full_depth_K : Bool
  prediction_num_scales : ℕ
  depth_mode : String

/-! ## 4x4 matrices over exact rationals -/

abbrev M4 := Matrix (Fin 4) (Fin 4) ℚ

/-- The intrinsics matrix built by `load_intrinsics`: `torch.eye(4)` with the
top-left 3x3 block set to `[[fx, 0, cx], [0, fy, cy], [0, 0, 1]]`. -/
def buildK (fx fy cx cy : ℚ) : M4 :=
  !![fx, 0, cx, 0; 0, fy, cy, 0; 0, 0, 1, 0; 0, 0, 0, 1]

/-- `K[r] *= s`: scale one row of a matrix in place. -/
def mulRow (M : M4) (r : Fin 4) (s : ℚ) : M4 :=
  M.updateRow r (fun j => M r j * s)

/-- The four assignments of the `rotate_images` block, reading from the
pre-rotation clone `temp`:
`K[0,0] = temp[1,1]; K[1,1] = temp[0,0]; K[1,2] = temp[0,2];
 K[0,2] = height - temp[1,2]`. -/
def rotateK (M : M4) (height : ℚ) : M4 :=
  Matrix.of fun i j =>
    if i = 0 ∧ j = 0 then M 1 1
    else if i = 1 ∧ j = 1 then M 0 0
    else if i = 1 ∧ j = 2 then M 0 2
    else if i = 0 ∧ j = 2 then height - M 1 2
    else M i j

/-- The per-scale division of `load_intrinsics`:
`K[0,0] /= 2**i; K[1,1] /= 2**i; K[0,2] /= 2**i; K[1,2] /= 2**i`. -/
def divScale (M : M4) (i : ℕ) : M4 :=
  Matrix.of fun r c =>
    if (r = 0 ∧ c = 0) ∨ (r = 1 ∧ c = 1) ∨ (r = 0 ∧ c = 2) ∨ (r = 1 ∧ c = 2)
    then M r c / 2 ^ i else M r c

/-- `torch.linalg.inv` / `np.linalg.inv`: the exact matrix inverse, written
with the computable adjugate formula. -/
def inv4 (A : M4) : M4 := (A.det)⁻¹ • A.adjugate

/-! ## load_pose -/

/-- The fixed OpenGL-to-OpenCV sign mask `gl_to_cv` (row-major). -/
def glToCv : List ℚ :=
  [1, -1, -1, 1, -1, 1, 1, -1, -1, 1, 1, -1, 1, 1, 1, 1]

/-- Body of `load_pose` applied to one frame record: the stored
`transform_matrix`, with the elementwise `gl_to_cv` correction applied only
when the scene's `"frames"` entry (a dict) equals the string `"opengl"`. -/
def framePoseWorld (scene : SceneMeta) (fm : FrameMeta) : List FVal :=
  if PyVal.eq (PyVal.dict scene.frames) (PyVal.str "opengl")
  then (fm.transform_matrix.zip glToCv).map (fun p => p.1.mul (FVal.fin p.2))
  else fm.transform_matrix

/-- A stored 16-entry transform, read back as a rational 4x4 matrix when all
entries are finite (row-major, as `.view(4, 4)` does). -/
def toM4 (t : List FVal) : Option M4 :=
  if t.length = 16 ∧ t.all FVal.isFinite then
    some (Matrix.of fun i j =>
      match t.getD (4 * i.val + j.val) (FVal.fin 0) with
      | FVal.fin q => q
      | _ => 0)
  else none

/-- `load_pose`: returns `world_T_cam` (the stored transform, possibly
sign-corrected) and `cam_T_world = np.linalg.inv(world_T_cam)`.  The inverse
is given as a rational matrix when the pose is finite; `np.linalg.inv` of a
non-finite matrix has no clean semantics and is modelled as `none`. -/
def load_pose (scene : SceneMeta) (fid : String) :
    Option (List FVal × Option M4) :=
  (lookupD scene.frames fid).map fun fm =>
    let w := framePoseWorld scene fm
    (w, (toM4 w).map inv4)

/-! ## load_intrinsics -/

/-- One forward/inverse pair of the output dict:
`output_dict["K_<name>"] = M; output_dict["invK_<name>"] = inv(M)`. -/
def kPair (name : String) (M : M4) : List (String × M4) :=
  [("K_" ++ name, M), ("invK_" ++ name, inv4 M)]

/-- `K_matching`: `K` with row 0 scaled by `matching_width / w` and row 1
scaled by `matching_height / h`, before any rotation. -/
def K_matching0 (cfg : Config) (fx fy cx cy w h : ℚ) : M4 :=
  mulRow (mulRow (buildK fx fy cx cy) 0 ((cfg.matching_width : ℚ) / w)) 1
    ((cfg.matching_height : ℚ) / h)

/-- `K_depth`: `K` with row 0 scaled by `depth_width / w` and row 1 scaled by
`depth_height / h`. Cloned from `K` BEFORE the `rotate_images` block runs,
so it is never rotated. -/
def K_depth0 (cfg : Config) (fx fy cx cy w h : ℚ) : M4 :=
  mulRow (mulRow (buildK fx fy cx cy) 0 ((cfg.depth_width : ℚ) / w)) 1
    ((cfg.depth_height : ℚ) / h)

/-- The intrinsics dict built by `load_intrinsics` from the resolved scalar
parameters, as an insertion-ordered association list with the source's exact
keys. When `rotate_images` is set the source also rotates `K` itself (using
`depth_height`), but that matrix is dead: every output is derived from
`K_matching` and `K_depth`, and only `K_matching` is rotated. -/
def load_intrinsics_core (cfg : Config) (fx fy cx cy w h : ℚ) :
    List (String × M4) :=
  ([("matching_b44",
      if cfg.rotate_images
      then rotateK (K_matching0 cfg fx fy cx cy w h) (cfg.matching_height : ℚ)
      else K_matching0 cfg fx fy cx cy w h)]
    ++ (if cfg.include_full_depth_K
        then [("full_depth_b44", K_depth0 cfg fx fy cx cy w h)] else [])
    ++ (List.range cfg.prediction_num_scales).map
        (fun i => ("s" ++ toString i ++ "_b44",
          divScale (K_depth0 cfg fx fy cx cy w h) i))
  ).flatMap fun p => kPair p.1 p.2

/-- `load_intrinsics`: look up the frame record, resolve the five intrinsics
scalars (per-frame override, scene-wide default), apply the optional
horizontal flip to `cx`, and build the dict. -/
def load_intrinsics (cfg : Config) (scene : SceneMeta) (fid : String)
    (flip : Bool) : Option (List (String × M4)) :=
  (lookupD scene.frames fid).map fun fd =>
    let w := fd.w.getD scene.w
    let h := fd.h.getD scene.h
    let cx0 := fd.cx.getD scene.cx
    let cy := fd.cy.getD scene.cy
    let fx := fd.fl_x.getD scene.fl_x
    let fy := fd.fl_y.getD scene.fl_y
    let cx := if flip then w - cx0 else cx0
    load_intrinsics_core cfg fx fy cx cy w h

/-! ## Depth images -/

/-- A single-channel depth image: `h` rows by `w` columns of (finite) pixel
values; `pix` is total, with only indices below the bounds meaningful. -/
structure Img where
  h : ℕ
  w : ℕ
  pix : ℕ → ℕ → ℚ

/-- The optional rectangular crop of `load_target_size_depth_and_mask`:
`depth[crop[1]:crop[3], crop[0]:crop[2]]` with `crop = (left, top, right,
bottom)`. Slice bounds clamp to the array size, as in Python. -/
structure CropBox where
  left : ℕ
  top : ℕ
  right : ℕ
  bottom : ℕ

def cropImg (img : Img) (c : CropBox) : Img where
  h := min c.bottom img.h - min c.top img.h
  w := min c.right img.w - min c.left img.w
  pix := fun i j => img.pix (min c.top img.h + i) (min c.left img.w + j)

/-- `cv2.resize(img, dsize=(W, H), interpolation=cv2.INTER_NEAREST)`: output
pixel `(i, j)` reads source pixel `(floor(i*h/H), floor(j*w/W))`, clamped to
the source bounds. -/
def nnResize (img : Img) (W H : ℕ) : Img where
  h := H
  w := W
  pix := fun i j =>
    img.pix (min (i * img.h / H) (img.h - 1)) (min (j * img.w / W) (img.w - 1))

/-- All pixels of an image in row-major order (`numpy` flattening, used both
by boolean-mask indexing and by `.any()`). -/
def pixList (img : Img) : List ℚ :=
  (List.range img.h).flatMap fun i => (List.range img.w).map fun j => img.pix i j

/-- Insertion into a sorted list (ascending). -/
def insertSorted (x : ℚ) : List ℚ → List ℚ
  | [] => [x]
  | y :: rest => if x ≤ y then x :: y :: rest else y :: insertSorted x rest

/-- Ascending insertion sort, standing in for numpy's sort. -/
def sortQ (l : List ℚ) : List ℚ := l.foldr insertSorted []

/-- `np.quantile(xs, q)` with the default linear interpolation, for nonempty
`xs`: with `s` sorted and `pos = q*(n-1)`, the result interpolates between
`s[floor pos]` and the next element. -/
def np_quantile (xs : List ℚ) (q : ℚ) : ℚ :=
  let s := sortQ xs
  let n := s.length
  let pos := q * ((n : ℚ) - 1)
  let lo := (⌊pos⌋).toNat
  let g := pos - (⌊pos⌋ : ℚ)
  let hi := min (lo + 1) (n - 1)
  s.getD lo 0 + g * (s.getD hi 0 - s.getD lo 0)

/-- `np.quantile` as numpy behaves on possibly-empty input: an empty array
has no quantile (numpy warns and produces NaN). -/
def np_quantile_f (xs : List ℚ) (q : ℚ) : FVal :=
  if xs.isEmpty then FVal.nan else FVal.fin (np_quantile xs q)

/-- `a < b` on float values: comparisons involving NaN are false. -/
def FVal.lt : FVal → FVal → Bool
  | .fin a, .fin b => a < b
  | .fin _, .pinf => true
  | .ninf, .fin _ => true
  | .ninf, .pinf => true
  | _, _ => false

/-! ## Depth loaders -/

/-- The fixed all-zero placeholder `np.zeros((1000, 1000))` substituted when
decoding raises. -/
def zeroImg : Img := ⟨1000, 1000, fun _ _ => 0⟩

/-- `_load_depth`: `cv2.imread` inside `try/except`; its input here is the
outcome of decoding the file (a raised exception is `Except.error`). Any
raised decode failure is swallowed and replaced by the zero placeholder. -/
def load_depth_ex (r : Except Unit Img) : Img :=
  match r with
  | .ok img => img
  | .error _ => zeroImg

/-- What the two depth loaders return: a `(1, h, w)`-shaped depth tensor
(`FVal`-valued since invalid pixels hold NaN), the float validity mask and
the boolean validity mask. -/
structure DepthOut where
  shape : ℕ × ℕ × ℕ
  depth : ℕ → ℕ → FVal
  mask : ℕ → ℕ → ℚ
  mask_b : ℕ → ℕ → Bool

/-- The missing-depth-file fallback shared by both loaders:
`torch.zeros(1, depth_height, depth_width)` filled with NaN, plus all-zero /
all-false masks of the same shape. -/
def nanDepthOut (cfg : Config) : DepthOut where
  shape := (1, cfg.depth_height, cfg.depth_width)
  depth := fun _ _ => FVal.nan
  mask := fun _ _ => 0
  mask_b := fun _ _ => false

/-- The depth/mask record `load_full_res_depth_and_mask` builds from the
loaded depth values: street-percentile or `depth > 0` boolean mask, float
mask, NaN at invalid pixels, no division. -/
def fullResOut (scan_id : String) (d : Img) : DepthOut :=
  let mask_b : ℕ → ℕ → Bool :=
    if strContains scan_id "street"
        && (pixList d).any (fun q => decide (q < 65000)) then
      fun i j =>
        decide (d.pix i j <
          np_quantile ((pixList d).filter (fun q => decide (q < 65000)))
            (19 / 20))
    else
      fun i j => decide (0 < d.pix i j)
  { shape := (1, d.h, d.w)
    depth := fun i j => if mask_b i j then FVal.fin (d.pix i j) else FVal.nan
    mask := fun i j => if mask_b i j then 1 else 0
    mask_b := mask_b }

/-- `load_full_res_depth_and_mask`.  `file` is `none` when
`get_full_res_depth_filepath` found no depth file (the early all-NaN
return, before any read happens), otherwise the decoding outcome of the
file's content.  After the guarded `_load_depth` call the source re-reads
the same path with a second, UNGUARDED `cv2.imread` (its result `image` is
never used), so a raised decode failure — the very failure `_load_depth`
just swallowed — propagates out of this method, which is therefore
fallible.  (cv2.imread's other failure mode, returning None without
raising, is not modelled: decoding here either raises or yields an
image.) -/
def load_full_res_depth_and_mask (cfg : Config) (scan_id : String)
    (file : Option (Except Unit Img)) : Except Unit DepthOut :=
  match file with
  | none => Except.ok (nanDepthOut cfg)
  | some dec =>
    let full_res_depth := load_depth_ex dec
    match dec with
    | Except.error e => Except.error e
    | Except.ok _ => Except.ok (fullResOut scan_id full_res_depth)

/-- `load_target_size_depth_and_mask`: optional crop, nearest-neighbour
resize to `(depth_width, depth_height)`, `mask_b = depth > 0` on the resized
(pre-division) values, returned depth divided by 100, NaN at invalid
pixels. -/
def load_target_size_depth_and_mask (cfg : Config) (scan_id : String)
    (file : Option (Except Unit Img)) (crop : Option CropBox) : DepthOut :=
  match file with
  | none => nanDepthOut cfg
  | some dec =>
    let d0 := load_depth_ex dec
    let d1 := match crop with
      | some c => cropImg d0 c
      | none => d0
    let d := nnResize d1 cfg.depth_width cfg.depth_height
    let mask_b : ℕ → ℕ → Bool := fun i j => decide (0 < d.pix i j)
    { shape := (1, d.h, d.w)
      depth := fun i j =>
        if mask_b i j then FVal.fin (d.pix i j / 100) else FVal.nan
      mask := fun i j => if mask_b i j then 1 else 0
      mask_b := mask_b }

/-! ## Valid-frame enumeration and its cache -/

/-- The validity test of `get_valid_frame_ids`: a pose is bad when the sum of
its 16 entries is NaN, +inf or -inf. -/
def isBadPose (t : List FVal) : Bool :=
  (npSum t).isNan || (npSum t).isInf || (npSum t).isNegInf

/-- The frame loop of `get_valid_frame_ids`: iterate the frames dict in
order (each `load_pose` lookup returns the entry being iterated, since dict
keys are unique), incrementing `dist_to_last_valid_frame` on bad poses and
emitting `"<scan> <frame> <dist>"` then resetting it on good ones. -/
def validFramesGo (scene : SceneMeta) (scan : String) :
    List (String × FrameMeta) → ℕ → List String
  | [], _ => []
  | (fid, fm) :: rest, dist =>
    if isBadPose (framePoseWorld scene fm) then
      validFramesGo scene scan rest (dist + 1)
    else
      (scan ++ " " ++ fid ++ " " ++ toString dist) ::
        validFramesGo scene scan rest 0

/-- The compute branch of `get_valid_frame_ids`. -/
def computeValidFrames (scene : SceneMeta) (scan : String) : List String :=
  validFramesGo scene scan scene.frames 0

/-- An explicit filesystem: raw file contents by path, plus whether writes
succeed (covering the read-only-directory failure the source catches). -/
structure FileSys where
  files : String → Option String
  writable : Bool

/-- `os.path.exists`: the empty path never exists. -/
def pathExists (fs : FileSys) (p : String) : Bool :=
  p ≠ "" && (fs.files p).isSome

/-- `get_valid_frame_path`: the deterministic cache path
`<dataset_path>/valid_frames/<sub_folder_dir(split)>/<scan>/valid_frames.txt`
(the `mkdir` side effect is not modelled). -/
def get_valid_frame_path (cfg : Config) (split scan : String) : String :=
  cfg.dataset_path ++ "/valid_frames/" ++ cfg.sub_folder_dir split ++ "/" ++
    scan ++ "/valid_frames.txt"

/-- `get_valid_frame_ids`: returns the valid-frame list and the filesystem
after the call. The cache path is only formed when `store_computed` is set
(otherwise it is `""`); a cache hit returns the file's `readlines` verbatim;
otherwise the list is computed from the scene metadata and, when
`store_computed` is set, written back best-effort (a failed write is caught
and logged, leaving the returned list unchanged). -/
def get_valid_frame_ids (cfg : Config) (scene : SceneMeta) (fs : FileSys)
    (split scan0 : String) (store_computed : Bool) : List String × FileSys :=
  let scan := rstripNl scan0
  let valid_frame_path :=
    if store_computed then get_valid_frame_path cfg split scan else ""
  if pathExists fs valid_frame_path then
    (pyReadlines ((fs.files valid_frame_path).getD ""), fs)
  else
    let valid_frames := computeValidFrames scene scan
    if store_computed then
      if fs.writable then
        (valid_frames,
          { fs with
            files := fun p =>
              if p = valid_frame_path then some (joinNl valid_frames ++ "\n")
              else fs.files p })
      else (valid_frames, fs)
    else (valid_frames, fs)

/-! ## Helper lemmas -/

/-- Python's `==` between a dict and a string is `False` for every dict: the
convention check of `load_pose` can never fire. -/
theorem pyEq_dict_str [BEq α] (d : List (String × α)) (s : String) :
    PyVal.eq (PyVal.dict d) (PyVal.str s) = false := rfl

/-- Consequently `load_pose` always returns the stored transform verbatim. -/
theorem framePoseWorld_eq (scene : SceneMeta) (fm : FrameMeta) :
    framePoseWorld scene fm = fm.transform_matrix := rfl

theorem det_buildK (a b c d : ℚ) : (buildK a b c d).det = a * b := by
  rw [Matrix.det_of_upperTriangular]
  · rw [Fin.prod_univ_four]
    simp [buildK]
  · intro i j hij
    fin_cases i <;> fin_cases j <;>
      first
        | exact absurd hij (by decide)
        | simp [buildK, Matrix.vecHead, Matrix.vecTail]

theorem mul_inv4 (A : M4) (h : A.det ≠ 0) : A * inv4 A = 1 := by
  have hd : inv4 A = A⁻¹ := by rw [Matrix.inv_def, Ring.inverse_eq_inv]; rfl
  rw [hd]
  exact A.mul_nonsing_inv (isUnit_iff_ne_zero.mpr h)

theorem inv4_mul (A : M4) (h : A.det ≠ 0) : inv4 A * A = 1 := by
  have hd : inv4 A = A⁻¹ := by rw [Matrix.inv_def, Ring.inverse_eq_inv]; rfl
  rw [hd]
  exact A.nonsing_inv_mul (isUnit_iff_ne_zero.mpr h)

theorem buildK_mul_inv4 (a b c d : ℚ) (ha : a ≠ 0) (hb : b ≠ 0) :
    buildK a b c d * inv4 (buildK a b c d) = 1 :=
  mul_inv4 _ (by rw [det_buildK]; exact mul_ne_zero ha hb)

/-- Closed form of `K_matching` before rotation. -/
theorem K_matching0_eq (cfg : Config) (fx fy cx cy w h : ℚ) :
    K_matching0 cfg fx fy cx cy w h =
      buildK (fx * ((cfg.matching_width : ℚ) / w))
        (fy * ((cfg.matching_height : ℚ) / h))
        (cx * ((cfg.matching_width : ℚ) / w))
        (cy * ((cfg.matching_height : ℚ) / h)) := by
  ext i j
  fin_cases i <;> fin_cases j <;>
    simp [K_matching0, mulRow, buildK, Matrix.updateRow_apply,
      Matrix.vecHead, Matrix.vecTail]

/-- Closed form of `K_depth`. -/
theorem K_depth0_eq (cfg : Config) (fx fy cx cy w h : ℚ) :
    K_depth0 cfg fx fy cx cy w h =
      buildK (fx * ((cfg.depth_width : ℚ) / w))
        (fy * ((cfg.depth_height : ℚ) / h))
        (cx * ((cfg.depth_width : ℚ) / w))
        (cy * ((cfg.depth_height : ℚ) / h)) := by
  ext i j
  fin_cases i <;> fin_cases j <;>
    simp [K_depth0, mulRow, buildK, Matrix.updateRow_apply,
      Matrix.vecHead, Matrix.vecTail]

/-- The `rotate_images` assignments on a `buildK`-shaped matrix: swap the
focal lengths and move the principal point to `(height - cy, cx)`. -/
theorem rotateK_buildK (a b c d hgt : ℚ) :
    rotateK (buildK a b c d) hgt = buildK b a (hgt - d) c := by
  ext i j
  fin_cases i <;> fin_cases j <;>
    simp [rotateK, buildK, Matrix.vecHead, Matrix.vecTail]

/-- The per-scale division on a `buildK`-shaped matrix. -/
theorem divScale_buildK (a b c d : ℚ) (i : ℕ) :
    divScale (buildK a b c d) i =
      buildK (a / 2 ^ i) (b / 2 ^ i) (c / 2 ^ i) (d / 2 ^ i) := by
  ext r c2
  fin_cases r <;> fin_cases c2 <;>
    simp [divScale, buildK, Matrix.vecHead, Matrix.vecTail]

/-- Entry-level description of the per-scale division. -/
theorem divScale_entries (M : M4) (i : ℕ) :
    divScale M i 0 0 = M 0 0 / 2 ^ i ∧ divScale M i 1 1 = M 1 1 / 2 ^ i ∧
    divScale M i 0 2 = M 0 2 / 2 ^ i ∧ divScale M i 1 2 = M 1 2 / 2 ^ i := by
  refine ⟨?_, ?_, ?_, ?_⟩ <;> simp [divScale]

/-- Default entry for positional access into the intrinsics dict. -/
def pdDefault : String × M4 := ("", 1)

/-- The output dict pairs up: entry `2i+1` is keyed `"inv" ++` the key of
entry `2i`, and the two matrices multiply to the identity. -/
def invPaired (l : List (String × M4)) : Prop :=
  ∀ i : ℕ, 2 * i + 1 < l.length →
    (l.getD (2 * i + 1) pdDefault).1 = "inv" ++ (l.getD (2 * i) pdDefault).1 ∧
    (l.getD (2 * i) pdDefault).2 * (l.getD (2 * i + 1) pdDefault).2 = 1

theorem length_kPairs (ps : List (String × M4)) :
    (ps.flatMap fun p => kPair p.1 p.2).length = 2 * ps.length := by
  induction ps with
  | nil => rfl
  | cons p ps ih =>
    rw [List.flatMap_cons, List.length_append, ih]
    simp only [kPair, List.length_cons, List.length_nil, List.length_singleton]
    omega

theorem invPaired_kPairs (ps : List (String × M4))
    (hps : ∀ p ∈ ps, p.2 * inv4 p.2 = 1) :
    invPaired (ps.flatMap fun p => kPair p.1 p.2) := by
  induction ps with
  | nil => intro i hi; simp at hi
  | cons p ps ih =>
    intro i hi
    have hcons : ((p :: ps).flatMap fun q => kPair q.1 q.2) =
        ("K_" ++ p.1, p.2) :: ("invK_" ++ p.1, inv4 p.2) ::
          (ps.flatMap fun q => kPair q.1 q.2) := by
      simp [kPair]
    cases i with
    | zero =>
      rw [hcons]
      refine ⟨?_, ?_⟩
      · show ("invK_" ++ p.1) = "inv" ++ "K_" ++ p.1
        have hk : ("inv" ++ "K_" : String) = "invK_" := rfl
        rw [hk]
      · exact hps p (List.mem_cons_self p ps)
    | succ k =>
      rw [hcons] at hi ⊢
      have h1 : 2 * (k + 1) = (2 * k) + 1 + 1 := by ring
      rw [h1]
      simp only [List.getD_cons_succ]
      have hlen : 2 * k + 1 < (ps.flatMap fun q => kPair q.1 q.2).length := by
        simp only [List.length_cons] at hi
        omega
      exact ih (fun q hq => hps q (List.mem_cons_of_mem p hq)) k hlen

/-! ## Claim C1 -/

/-- All-good-poses case of the frame loop. -/
theorem validFramesGo_allGood (scene : SceneMeta) (scan : String)
    (l : List (String × FrameMeta))
    (hl : ∀ p ∈ l, isBadPose p.2.transform_matrix = false) :
    validFramesGo scene scan l 0 =
      l.map (fun p => scan ++ " " ++ p.1 ++ " " ++ "0") := by
  induction l with
  | nil => rfl
  | cons p rest ih =>
    obtain ⟨fid, fm⟩ := p
    have hbad : isBadPose (framePoseWorld scene fm) = false := by
      rw [framePoseWorld_eq]
      exact hl (fid, fm) (List.mem_cons_self _ _)
    simp only [validFramesGo, hbad, Bool.false_eq_true, if_false, List.map_cons]
    rw [ih (fun q hq => hl q (List.mem_cons_of_mem _ hq))]
    rfl

/-- Claim C1: when `get_valid_frame_ids` computes (rather than reads a
cache), a frame is invalid exactly when the sum of the 16 pose entries is
NaN or an infinity; each valid frame emits one `"<scan> <frame> <gap>"`
record where the gap counter increments on invalid frames and resets on
valid ones.  In particular an all-finite-pose scene yields one record per
frame with gap 0, and a scene with frames [valid, invalid, invalid, valid]
yields exactly two records with gaps 0 and 2. -/
theorem C1_valid_frames_spec :
    (∀ t : List FVal,
      isBadPose t =
        ((npSum t).isNan || (npSum t).isInf || (npSum t).isNegInf)) ∧
    (∀ (scene : SceneMeta) (scan : String),
      (∀ p ∈ scene.frames, isBadPose p.2.transform_matrix = false) →
      computeValidFrames scene scan =
        scene.frames.map (fun p => scan ++ " " ++ p.1 ++ " " ++ "0")) ∧
    (∀ (scene : SceneMeta) (scan i1 i2 i3 i4 : String)
      (f1 f2 f3 f4 : FrameMeta),
      scene.frames = [(i1, f1), (i2, f2), (i3, f3), (i4, f4)] →
      isBadPose f1.transform_matrix = false →
      isBadPose f2.transform_matrix = true →
      isBadPose f3.transform_matrix = true →
      isBadPose f4.transform_matrix = false →
      computeValidFrames scene scan =
        [scan ++ " " ++ i1 ++ " " ++ "0", scan ++ " " ++ i4 ++ " " ++ "2"]) := by
  refine ⟨fun t => rfl, ?_, ?_⟩
  · intro scene scan hall
    exact validFramesGo_allGood scene scan scene.frames hall
  · intro scene scan i1 i2 i3 i4 f1 f2 f3 f4 hfr h1 h2 h3 h4
    unfold computeValidFrames
    rw [hfr]
    simp only [validFramesGo, framePoseWorld_eq, h1, h2, h3, h4,
      Bool.false_eq_true, if_false, if_true]
    rfl

/-- A 16-entry identity pose (all entries finite). -/
def idT : List FVal :=
  [FVal.fin 1, FVal.fin 0, FVal.fin 0, FVal.fin 0,
   FVal.fin 0, FVal.fin 1, FVal.fin 0, FVal.fin 0,
   FVal.fin 0, FVal.fin 0, FVal.fin 1, FVal.fin 0,
   FVal.fin 0, FVal.fin 0, FVal.fin 0, FVal.fin 1]

/-- An identity pose whose translation got corrupted to NaN. -/
def nanT : List FVal :=
  [FVal.fin 1, FVal.fin 0, FVal.fin 0, FVal.nan,
   FVal.fin 0, FVal.fin 1, FVal.fin 0, FVal.fin 0,
   FVal.fin 0, FVal.fin 0, FVal.fin 1, FVal.fin 0,
   FVal.fin 0, FVal.fin 0, FVal.fin 0, FVal.fin 1]

/-- An identity pose whose translation got corrupted to +infinity. -/
def pinfT : List FVal :=
  [FVal.fin 1, FVal.fin 0, FVal.fin 0, FVal.pinf,
   FVal.fin 0, FVal.fin 1, FVal.fin 0, FVal.fin 0,
   FVal.fin 0, FVal.fin 0, FVal.fin 1, FVal.fin 0,
   FVal.fin 0, FVal.fin 0, FVal.fin 0, FVal.fin 1]

def sceneW1 : SceneMeta :=
  { w := 640, h := 480, cx := 320, cy := 240, fl_x := 500, fl_y := 500,
    frames := [("images/a.png", { file_path := "images/a.png", transform_matrix := idT }),
               ("images/b.png", { file_path := "images/b.png", transform_matrix := idT })] }

def sceneW2 : SceneMeta :=
  { w := 640, h := 480, cx := 320, cy := 240, fl_x := 500, fl_y := 500,
    frames := [("f1", { file_path := "f1", transform_matrix := idT }),
               ("f2", { file_path := "f2", transform_matrix := nanT }),
               ("f3", { file_path := "f3", transform_matrix := pinfT }),
               ("f4", { file_path := "f4", transform_matrix := idT })] }

theorem C1_witness :
    computeValidFrames sceneW1 "scene0" =
      ["scene0 images/a.png 0", "scene0 images/b.png 0"] ∧
    computeValidFrames sceneW2 "scene0" = ["scene0 f1 0", "scene0 f4 2"] := by
  constructor
  · exact (C1_valid_frames_spec.2.1 sceneW1 "scene0"
      (by
        simp only [sceneW1, List.forall_mem_cons]
        exact ⟨by decide, by decide, List.forall_mem_nil _⟩)).trans
      (by decide)
  · exact (C1_valid_frames_spec.2.2 sceneW2 "scene0" "f1" "f2" "f3" "f4" _ _ _ _
      rfl (by decide) (by decide) (by decide) (by decide)).trans (by decide)

/-! ## Claim C3 -/

/-- Claim C3: for an existing depth file, `load_target_size_depth_and_mask`
crops (when a crop is given) before nearest-neighbour-resizing to
`(depth_width, depth_height)`; the validity mask is exactly
`resized depth > 0` on the pre-division values for every scan id, and the
returned depth is the resized value divided by 100 at valid pixels and NaN
elsewhere. -/
theorem C3_target_depth (cfg : Config) (scan : String) (dec : Except Unit Img)
    (c : CropBox) :
    load_target_size_depth_and_mask cfg scan (some dec) (some c) =
      load_target_size_depth_and_mask cfg scan
        (some (Except.ok (cropImg (load_depth_ex dec) c))) none ∧
    (∀ scan2 file crop2,
      load_target_size_depth_and_mask cfg scan file crop2 =
        load_target_size_depth_and_mask cfg scan2 file crop2) ∧
    (load_target_size_depth_and_mask cfg scan (some dec) (some c)).shape =
      (1, cfg.depth_height, cfg.depth_width) ∧
    (∀ i j,
      (load_target_size_depth_and_mask cfg scan (some dec) (some c)).mask_b i j =
        decide (0 < (nnResize (cropImg (load_depth_ex dec) c)
          cfg.depth_width cfg.depth_height).pix i j)) ∧
    (∀ i j,
      (load_target_size_depth_and_mask cfg scan (some dec) (some c)).mask_b i j
          = true →
      (load_target_size_depth_and_mask cfg scan (some dec) (some c)).depth i j =
        FVal.fin ((nnResize (cropImg (load_depth_ex dec) c)
          cfg.depth_width cfg.depth_height).pix i j / 100)) ∧
    (∀ i j,
      (load_target_size_depth_and_mask cfg scan (some dec) (some c)).mask_b i j
          = false →
      (load_target_size_depth_and_mask cfg scan (some dec) (some c)).depth i j =
        FVal.nan) := by
  refine ⟨rfl, fun _ _ _ => rfl, rfl, fun i j => rfl, ?_, ?_⟩
  · intro i j hm
    simp only [load_target_size_depth_and_mask] at hm ⊢
    simp [hm]
  · intro i j hm
    simp only [load_target_size_depth_and_mask] at hm ⊢
    simp [hm]

def img3 : Img := ⟨2, 2, fun i j => (([[100, 0], [300, 400]] : List (List ℚ)).getD i []).getD j 0⟩

def cfg3 : Config := ⟨"d", fun s => s, 4, 4, 2, 2, false, false, 1, "rendered_depth"⟩

theorem C3_witness :
    (load_target_size_depth_and_mask cfg3 "x" (some (Except.ok img3))
      (some ⟨0, 0, 2, 2⟩)).mask_b 0 1 = false ∧
    (load_target_size_depth_and_mask cfg3 "x" (some (Except.ok img3))
      (some ⟨0, 0, 2, 2⟩)).depth 0 0 =
      FVal.fin ((nnResize (cropImg (load_depth_ex (Except.ok img3)) ⟨0, 0, 2, 2⟩)
        cfg3.depth_width cfg3.depth_height).pix 0 0 / 100) := by
  constructor
  · exact ((C3_target_depth cfg3 "x" (Except.ok img3) ⟨0, 0, 2, 2⟩).2.2.2.1 0 1).trans
      (by norm_num [nnResize, cropImg, load_depth_ex, img3, cfg3])
  · exact (C3_target_depth cfg3 "x" (Except.ok img3) ⟨0, 0, 2, 2⟩).2.2.2.2.1 0 0
      (by norm_num [load_target_size_depth_and_mask, nnResize, cropImg,
        load_depth_ex, img3, cfg3])

/-! ## Claim C4 -/

/-- Claim C4: when the depth file is absent, both loaders return a
`(1, depth_height, depth_width)`-shaped all-NaN depth tensor with an
all-zero float mask and an all-false boolean mask. -/
theorem C4_missing_depth_fallback (cfg : Config) (scan scan2 : String)
    (crop : Option CropBox) :
    load_full_res_depth_and_mask cfg scan none = Except.ok (nanDepthOut cfg) ∧
    (nanDepthOut cfg).shape = (1, cfg.depth_height, cfg.depth_width) ∧
    (∀ i j, (nanDepthOut cfg).depth i j = FVal.nan) ∧
    (∀ i j, (nanDepthOut cfg).mask i j = 0) ∧
    (∀ i j, (nanDepthOut cfg).mask_b i j = false) ∧
    (load_target_size_depth_and_mask cfg scan2 none crop).shape =
      (1, cfg.depth_height, cfg.depth_width) ∧
    (∀ i j, (load_target_size_depth_and_mask cfg scan2 none crop).depth i j =
      FVal.nan) ∧
    (∀ i j, (load_target_size_depth_and_mask cfg scan2 none crop).mask i j = 0) ∧
    (∀ i j, (load_target_size_depth_and_mask cfg scan2 none crop).mask_b i j =
      false) :=
  ⟨rfl, rfl, fun _ _ => rfl, fun _ _ => rfl, fun _ _ => rfl,
   rfl, fun _ _ => rfl, fun _ _ => rfl, fun _ _ => rfl⟩

/-! ## Claim C7 -/

/-- Claim C7: `load_pose` returns the stored `transform_matrix` unchanged —
the OpenGL-to-OpenCV correction branch compares a dict against the string
`"opengl"` and is therefore unreachable for every input — together with the
general 4x4 matrix inverse of that pose as `cam_T_world`. -/
theorem C7_load_pose (scene : SceneMeta) (fid : String) (fm : FrameMeta)
    (hlk : lookupD scene.frames fid = some fm) :
    load_pose scene fid =
      some (fm.transform_matrix, (toM4 fm.transform_matrix).map inv4) ∧
    (∀ (d : List (String × FrameMeta)) (s : String),
      PyVal.eq (PyVal.dict d) (PyVal.str s) = false) ∧
    (∀ A : M4, A.det ≠ 0 → A * inv4 A = 1 ∧ inv4 A * A = 1) := by
  refine ⟨?_, fun d s => rfl, fun A hA => ⟨mul_inv4 A hA, inv4_mul A hA⟩⟩
  simp only [load_pose, hlk, framePoseWorld_eq]
  rfl

def fmP : FrameMeta := { file_path := "images/f1.png", transform_matrix := idT }

def sceneP : SceneMeta :=
  { w := 640, h := 480, cx := 320, cy := 240, fl_x := 500, fl_y := 500,
    frames := [("images/f1.png", fmP)] }

theorem C7_witness :
    lookupD sceneP.frames "images/f1.png" = some fmP ∧
    load_pose sceneP "images/f1.png" =
      some (fmP.transform_matrix, (toM4 fmP.transform_matrix).map inv4) :=
  ⟨by decide, (C7_load_pose sceneP "images/f1.png" fmP (by decide)).1⟩

/-! ## Claim C9 -/

/-- Claim C9 counterexample: a raised decode failure DOES abort
`load_full_res_depth_and_mask` — the unguarded second `cv2.imread` of the
same path re-raises the exception `_load_depth` just swallowed — whereas a
successful decode does not; so it is false that no decode failure aborts
the call. -/
theorem C9_counterexample :
    load_full_res_depth_and_mask cfg3 "x" (some (Except.error ())) =
      Except.error () ∧
    load_full_res_depth_and_mask cfg3 "x" (some (Except.ok zeroImg)) ≠
      Except.error () := by
  refine ⟨rfl, ?_⟩
  intro h
  simp [load_full_res_depth_and_mask] at h

/-- Claim C9 (amended): `_load_depth` swallows any raised decode failure
and substitutes the fixed 1000x1000 all-zero placeholder, so
`load_target_size_depth_and_mask` never aborts on one — it proceeds exactly
as for a successfully decoded all-zero image; `load_full_res_depth_and_mask`,
however, re-reads the same file with an unguarded `cv2.imread`, so the same
raised decode failure aborts the full-resolution call. -/
theorem C9_decode_failure_amended (cfg : Config) (scan scan2 : String)
    (crop : Option CropBox) (e : Unit) :
    load_depth_ex (Except.error e) = zeroImg ∧
    load_target_size_depth_and_mask cfg scan2 (some (Except.error e)) crop =
      load_target_size_depth_and_mask cfg scan2 (some (Except.ok zeroImg)) crop ∧
    load_full_res_depth_and_mask cfg scan (some (Except.error e)) =
      Except.error e :=
  ⟨rfl, rfl, rfl⟩

/-! ## Claim C2 -/

/-- The street validity rule exactly as claim C2 states it, for every scan
id containing "street": a pixel is valid iff its depth is below the 95th
percentile of the depth values below 65000.  When no depth value is below
65000 that percentile is the quantile of an empty array, which numpy does
not turn into a number a 65000-or-larger depth could be below (it warns and
yields NaN); `np_quantile_f` models that, and a comparison against NaN is
false. -/
def claimedStreetMask (img : Img) (i j : ℕ) : Bool :=
  FVal.lt (FVal.fin (img.pix i j))
    (np_quantile_f ((pixList img).filter (fun q => decide (q < 65000))) (19 / 20))

/-- A street-scene depth image all of whose values are at least 65000. -/
def imgHigh : Img := ⟨1, 1, fun _ _ => 70000⟩

/-- Claim C2 counterexample: for the street scan `"street_a"` and a depth
image whose only value is 70000, the code marks the pixel valid (it falls
back to `depth > 0` because no value is below 65000), while the claim's
street rule marks it invalid — no value can be below a 95th percentile of
the (empty) set of values below 65000. -/
theorem C2_counterexample :
    strContains "street_a" "street" = true ∧
    load_full_res_depth_and_mask cfg3 "street_a" (some (Except.ok imgHigh)) =
      Except.ok (fullResOut "street_a" imgHigh) ∧
    (fullResOut "street_a" imgHigh).mask_b 0 0 = true ∧
    claimedStreetMask imgHigh 0 0 = false := by
  refine ⟨by decide, rfl, by decide, by decide⟩

/-- Claim C2 (amended): when the depth file exists, the boolean mask of
`load_full_res_depth_and_mask` follows the street percentile rule exactly
when the scan id contains "street" AND at least one depth value is below
65000; for non-street scans it is `depth > 0`.  (The claim as stated omits
the second condition; `C2_counterexample` shows it is needed.) -/
theorem C2_street_mask_amended (cfg : Config) (scan : String) (img : Img) :
    load_full_res_depth_and_mask cfg scan (some (Except.ok img)) =
      Except.ok (fullResOut scan img) ∧
    (strContains scan "street" = true →
      (pixList img).any (fun q => decide (q < 65000)) = true →
      ∀ i j,
        (fullResOut scan img).mask_b i j
          = decide (img.pix i j <
              np_quantile ((pixList img).filter (fun q => decide (q < 65000)))
                (19 / 20))) ∧
    (strContains scan "street" = false →
      ∀ i j,
        (fullResOut scan img).mask_b i j = decide (0 < img.pix i j)) := by
  refine ⟨rfl, ?_, ?_⟩
  · intro hs hl i j
    simp [fullResOut, hs, hl]
  · intro hs i j
    simp [fullResOut, hs]

/-- The synthetic depth array `[10, 20, 70000, 30]` of the spec's test
property, as a 1x4 image. -/
def img4 : Img := ⟨1, 4, fun _ j => ([10, 20, 70000, 30] : List ℚ).getD j 0⟩

theorem C2_witness :
    strContains "my_street" "street" = true ∧
    (pixList img4).any (fun q => decide (q < 65000)) = true ∧
    (fullResOut "my_street" img4).mask_b 0 1 = true ∧
    (fullResOut "my_street" img4).mask_b 0 2 = false ∧
    strContains "other" "street" = false ∧
    (fullResOut "other" img4).mask_b 0 2 = true := by
  refine ⟨by decide, by decide, ?_, ?_, by decide, ?_⟩
  · exact ((C2_street_mask_amended cfg3 "my_street" img4).2.1 (by decide) (by decide)
      0 1).trans (by
        norm_num [img4, pixList, List.range_succ, np_quantile, sortQ, insertSorted])
  · exact ((C2_street_mask_amended cfg3 "my_street" img4).2.1 (by decide) (by decide)
      0 2).trans (by
        norm_num [img4, pixList, List.range_succ, np_quantile, sortQ, insertSorted])
  · exact ((C2_street_mask_amended cfg3 "other" img4).2.2 (by decide) 0 2).trans
      (by norm_num [img4])

/-! ## Claim C10 -/

/-- Claim C10: for a street scan whose depth values are all at least 65000,
`load_full_res_depth_and_mask` silently falls back to the plain `depth > 0`
validity rule. -/
theorem C10_street_fallback (cfg : Config) (scan : String) (img : Img)
    (hs : strContains scan "street" = true)
    (hl : (pixList img).any (fun q => decide (q < 65000)) = false) :
    load_full_res_depth_and_mask cfg scan (some (Except.ok img)) =
      Except.ok (fullResOut scan img) ∧
    ∀ i j,
      (fullResOut scan img).mask_b i j = decide (0 < img.pix i j) := by
  refine ⟨rfl, fun i j => ?_⟩
  simp [fullResOut, hs, hl]

theorem C10_witness :
    strContains "street_a" "street" = true ∧
    (pixList imgHigh).any (fun q => decide (q < 65000)) = false ∧
    (fullResOut "street_a" imgHigh).mask_b 0 0 =
      decide (0 < imgHigh.pix 0 0) :=
  ⟨by decide, by decide,
    (C10_street_fallback cfg3 "street_a" imgHigh (by decide) (by decide)).2 0 0⟩

/-! ## Claim C5 -/

/-- A helper for stating scale-entry keys: the dict key
`"K_" ++ ("s" ++ t ++ "_b44")` is `"K_s" ++ t ++ "_b44"`. -/
theorem key_scale (t : String) :
    ("K_" ++ ("s" ++ t ++ "_b44") : String) = "K_s" ++ t ++ "_b44" := by
  rw [← String.append_assoc, ← String.append_assoc]
  rfl

/-- Claim C5 (amended): with `rotate_images` set, only the
matching-resolution intrinsics matrix is rotated — its focal lengths are
swapped and its principal point becomes `(matching_height - cy, cx)` (in
matching-resolution coordinates) — while the full-depth-resolution and
per-scale matrices are exactly those of the non-rotated configuration. -/
theorem C5_rotation_amended (cfg : Config) (fx fy cx cy w h : ℚ)
    (hrot : cfg.rotate_images = true) :
    (load_intrinsics_core cfg fx fy cx cy w h).getD 0 pdDefault =
      ("K_matching_b44",
        buildK (fy * ((cfg.matching_height : ℚ) / h))
          (fx * ((cfg.matching_width : ℚ) / w))
          ((cfg.matching_height : ℚ) - cy * ((cfg.matching_height : ℚ) / h))
          (cx * ((cfg.matching_width : ℚ) / w))) ∧
    (∀ a b c d hgt : ℚ, rotateK (buildK a b c d) hgt = buildK b a (hgt - d) c) ∧
    (load_intrinsics_core cfg fx fy cx cy w h).drop 2 =
      (load_intrinsics_core { cfg with rotate_images := false }
        fx fy cx cy w h).drop 2 := by
  refine ⟨?_, fun a b c d hgt => rotateK_buildK a b c d hgt, ?_⟩
  · simp only [load_intrinsics_core, hrot, if_true, List.flatMap_cons, kPair,
      List.cons_append, List.getD_cons_zero]
    rw [K_matching0_eq, rotateK_buildK]
    rfl
  · simp only [load_intrinsics_core, List.flatMap_cons, kPair, List.cons_append,
      List.nil_append, List.drop_succ_cons, List.drop_zero]
    rfl

/-- A rotated-images configuration with one prediction scale. -/
def cfg5 : Config := ⟨"d", fun s => s, 256, 192, 320, 240, true, false, 1,
  "rendered_depth"⟩

/-- Claim C5 counterexample: under `cfg5` (with `rotate_images` on) the
returned scale-0 intrinsics entry is keyed `"K_s0_b44"` but its matrix is
NOT the transposed (portrait) version of the un-rotated scale-0 matrix at
the height it is expressed in (`depth_height`): the code returns the
un-rotated matrix. -/
theorem C5_counterexample :
    ((load_intrinsics_core cfg5 100 200 30 40 640 480).getD 2 pdDefault).1 =
      "K_s0_b44" ∧
    ((load_intrinsics_core cfg5 100 200 30 40 640 480).getD 2 pdDefault).2 ≠
      rotateK (divScale (K_depth0 cfg5 100 200 30 40 640 480) 0)
        ((cfg5.depth_height : ℚ)) := by
  constructor
  · rfl
  · have hL : ((load_intrinsics_core cfg5 100 200 30 40 640 480).getD 2
        pdDefault).2 = divScale (K_depth0 cfg5 100 200 30 40 640 480) 0 := rfl
    rw [hL, K_depth0_eq, divScale_buildK, rotateK_buildK]
    intro hEq
    have h00 := congrFun (congrFun hEq 0) 0
    simp only [buildK, Matrix.cons_val', Matrix.cons_val_zero, Matrix.empty_val',
      Matrix.cons_val_fin_one, Matrix.of_apply] at h00
    norm_num [cfg5] at h00

theorem C5_witness :
    cfg5.rotate_images = true ∧
    (load_intrinsics_core cfg5 100 200 30 40 640 480).drop 2 =
      (load_intrinsics_core { cfg5 with rotate_images := false }
        100 200 30 40 640 480).drop 2 :=
  ⟨rfl, (C5_rotation_amended cfg5 100 200 30 40 640 480 rfl).2.2⟩

/-! ## Claim C6 -/

/-- Claim C6: the intrinsics dict holds exactly
`2 * prediction_num_scales + 2` matrices, plus 2 more exactly when
`include_full_depth_K` is set; every `invK` entry is the exact matrix
inverse of its paired forward entry (their product is the identity); and the
scale-`i` matrix is the full-depth-resolution matrix with focal lengths and
principal point divided by `2^i`. -/
theorem C6_intrinsics_inverse_pairs (cfg : Config) (fx fy cx cy w h : ℚ)
    (hfx : fx ≠ 0) (hfy : fy ≠ 0)
    (hmw : (cfg.matching_width : ℚ) / w ≠ 0)
    (hmh : (cfg.matching_height : ℚ) / h ≠ 0)
    (hdw : (cfg.depth_width : ℚ) / w ≠ 0)
    (hdh : (cfg.depth_height : ℚ) / h ≠ 0) :
    (load_intrinsics_core cfg fx fy cx cy w h).length =
      2 * cfg.prediction_num_scales + 2 +
        (if cfg.include_full_depth_K then 2 else 0) ∧
    invPaired (load_intrinsics_core cfg fx fy cx cy w h) ∧
    (∀ i < cfg.prediction_num_scales,
      ("K_s" ++ toString i ++ "_b44", divScale (K_depth0 cfg fx fy cx cy w h) i)
        ∈ load_intrinsics_core cfg fx fy cx cy w h) ∧
    (∀ (M : M4) (i : ℕ),
      divScale M i 0 0 = M 0 0 / 2 ^ i ∧ divScale M i 1 1 = M 1 1 / 2 ^ i ∧
      divScale M i 0 2 = M 0 2 / 2 ^ i ∧ divScale M i 1 2 = M 1 2 / 2 ^ i) := by
  refine ⟨?_, ?_, ?_, fun M i => divScale_entries M i⟩
  · rw [load_intrinsics_core, length_kPairs]
    by_cases hb : cfg.include_full_depth_K <;>
      simp [hb, List.length_append] <;> ring
  · apply invPaired_kPairs
    intro p hp
    rcases List.mem_append.mp hp with hp1 | hpsc
    · rcases List.mem_append.mp hp1 with hpm | hpf
      · rcases List.mem_singleton.mp hpm with rfl
        by_cases hrot : cfg.rotate_images
        · simp only [hrot, if_true]
          rw [K_matching0_eq, rotateK_buildK]
          exact buildK_mul_inv4 _ _ _ _ (mul_ne_zero hfy hmh) (mul_ne_zero hfx hmw)
        · simp only [hrot, if_false]
          rw [K_matching0_eq]
          exact buildK_mul_inv4 _ _ _ _ (mul_ne_zero hfx hmw) (mul_ne_zero hfy hmh)
      · by_cases hb : cfg.include_full_depth_K
        · simp only [hb, if_true, List.mem_singleton] at hpf
          rcases hpf with rfl
          rw [K_depth0_eq]
          exact buildK_mul_inv4 _ _ _ _ (mul_ne_zero hfx hdw) (mul_ne_zero hfy hdh)
        · simp [hb] at hpf
    · rcases List.mem_map.mp hpsc with ⟨i, _, rfl⟩
      show divScale (K_depth0 cfg fx fy cx cy w h) i *
        inv4 (divScale (K_depth0 cfg fx fy cx cy w h) i) = 1
      rw [K_depth0_eq, divScale_buildK]
      exact buildK_mul_inv4 _ _ _ _
        (div_ne_zero (mul_ne_zero hfx hdw) (pow_ne_zero i two_ne_zero))
        (div_ne_zero (mul_ne_zero hfy hdh) (pow_ne_zero i two_ne_zero))
  · intro i hi
    unfold load_intrinsics_core
    apply List.mem_flatMap.mpr
    refine ⟨("s" ++ toString i ++ "_b44",
      divScale (K_depth0 cfg fx fy cx cy w h) i), ?_, ?_⟩
    · exact List.mem_append_right _
        (List.mem_map.mpr ⟨i, List.mem_range.mpr hi, rfl⟩)
    · simp only [kPair, key_scale, List.mem_cons]
      left
      trivial

/-- A non-rotated configuration with two prediction scales. -/
def cfg6 : Config := ⟨"d", fun s => s, 256, 192, 320, 240, false, false, 2,
  "rendered_depth"⟩

theorem C6_witness :
    (load_intrinsics_core cfg6 100 200 30 40 640 480).length =
      2 * cfg6.prediction_num_scales + 2 +
        (if cfg6.include_full_depth_K then 2 else 0) ∧
    invPaired (load_intrinsics_core cfg6 100 200 30 40 640 480) :=
  ⟨(C6_intrinsics_inverse_pairs cfg6 100 200 30 40 640 480
      (by norm_num) (by norm_num) (by norm_num [cfg6]) (by norm_num [cfg6])
      (by norm_num [cfg6]) (by norm_num [cfg6])).1,
   (C6_intrinsics_inverse_pairs cfg6 100 200 30 40 640 480
      (by norm_num) (by norm_num) (by norm_num [cfg6]) (by norm_num [cfg6])
      (by norm_num [cfg6]) (by norm_num [cfg6])).2.1⟩

/-! ## Claim C8 -/

/-- Claim C8 (amended): the pre-existing cache at the deterministic path is
returned verbatim ONLY when `store_computed` is set (with `store_computed`
unset the checked path is `""`, so the function always recomputes, even when
a cache file exists); a cache hit performs no recomputation (the result does
not depend on the scene metadata at all); and when recomputation runs with
`store_computed` set, a failing cache write is caught, the returned list
being the same as with a successful write. -/
theorem C8_cache_amended (cfg : Config) (fs : FileSys) (split scan : String) :
    (∀ (scene scene2 : SceneMeta) (content : String),
      fs.files (get_valid_frame_path cfg split (rstripNl scan)) = some content →
      get_valid_frame_path cfg split (rstripNl scan) ≠ "" →
      get_valid_frame_ids cfg scene fs split scan true =
        (pyReadlines content, fs) ∧
      get_valid_frame_ids cfg scene fs split scan true =
        get_valid_frame_ids cfg scene2 fs split scan true) ∧
    (∀ scene : SceneMeta,
      get_valid_frame_ids cfg scene fs split scan false =
        (computeValidFrames scene (rstripNl scan), fs)) ∧
    (∀ scene : SceneMeta,
      pathExists fs (get_valid_frame_path cfg split (rstripNl scan)) = false →
      (get_valid_frame_ids cfg scene { fs with writable := false }
        split scan true).1 = computeValidFrames scene (rstripNl scan) ∧
      (get_valid_frame_ids cfg scene { fs with writable := true }
        split scan true).1 = computeValidFrames scene (rstripNl scan)) := by
  refine ⟨?_, ?_, ?_⟩
  · intro scene scene2 content hc hne
    have hex : pathExists fs (get_valid_frame_path cfg split (rstripNl scan))
        = true := by
      simp [pathExists, hc, hne]
    constructor
    · simp [get_valid_frame_ids, hex, hc]
    · simp [get_valid_frame_ids, hex]
  · intro scene
    have hex : pathExists fs "" = false := by simp [pathExists]
    simp [get_valid_frame_ids, hex]
  · intro scene hex
    have hexF : pathExists { fs with writable := false }
        (get_valid_frame_path cfg split (rstripNl scan)) = false := hex
    have hexT : pathExists { fs with writable := true }
        (get_valid_frame_path cfg split (rstripNl scan)) = false := hex
    constructor
    · simp [get_valid_frame_ids, hexF]
    · simp [get_valid_frame_ids, hexT]

def cfg8 : Config := ⟨"d", fun s => s, 256, 192, 320, 240, false, false, 1,
  "rendered_depth"⟩

/-- A filesystem holding a cache file at the deterministic path for split
`"tr"` and scan `"sc"` under `cfg8`. -/
def fs8 : FileSys :=
  ⟨fun p => if p = "d/valid_frames/tr/sc/valid_frames.txt"
    then some "cached\n" else none, true⟩

def scene8 : SceneMeta :=
  { w := 640, h := 480, cx := 320, cy := 240, fl_x := 500, fl_y := 500,
    frames := [("f1", { file_path := "f1", transform_matrix := idT })] }

/-- Claim C8 counterexample: a cache file exists at the deterministic path
(`pathExists` is true and it reads back as `["cached\n"]`), yet with
`store_computed = False` the call recomputes from metadata and returns
`["sc f1 0"]`, not the cache's lines. -/
theorem C8_counterexample :
    pathExists fs8 (get_valid_frame_path cfg8 "tr" (rstripNl "sc")) = true ∧
    pyReadlines ((fs8.files
      (get_valid_frame_path cfg8 "tr" (rstripNl "sc"))).getD "") = ["cached\n"] ∧
    (get_valid_frame_ids cfg8 scene8 fs8 "tr" "sc" false).1 = ["sc f1 0"] ∧
    (["sc f1 0"] : List String) ≠ ["cached\n"] := by
  refine ⟨by decide, by decide, by decide, by decide⟩

theorem C8_witness :
    (get_valid_frame_ids cfg8 scene8 fs8 "tr" "sc" true).1 = ["cached\n"] ∧
    get_valid_frame_ids cfg8 scene8 fs8 "tr" "sc" true =
      get_valid_frame_ids cfg8 sceneP fs8 "tr" "sc" true ∧
    (get_valid_frame_ids cfg8 scene8 ⟨fun _ => none, false⟩ "tr" "sc" true).1 =
      computeValidFrames scene8 (rstripNl "sc") := by
  refine ⟨?_, ?_, ?_⟩
  · have h := ((C8_cache_amended cfg8 fs8 "tr" "sc").1 scene8 sceneP "cached\n"
      (by decide) (by decide)).1
    rw [h]
    decide
  · exact ((C8_cache_amended cfg8 fs8 "tr" "sc").1 scene8 sceneP "cached\n"
      (by decide) (by decide)).2
  · exact ((C8_cache_amended cfg8 ⟨fun _ => none, true⟩ "tr" "sc").2.2 scene8
      (by decide)).1

end WAI
